import Mathlib

/-!
Shallow embedding of the processing engine of `parallel_llm_processor`
(`src/processor.ts`, `src/types.ts`) and of the pieces of the CLI it needs.

Conventions of the embedding:
* JS strings are Lean `String` / `List Char`; machine numbers that carry
  token counts are `Nat`, JS array indices that may go negative are `Int`,
  and the arithmetic of `parseFloat` results is done in `ℚ` (the claims
  settled here depend only on the sign or zero-ness of these values, on
  which exact rational arithmetic and IEEE doubles agree for the inputs
  involved).
* `undefined`/`null`/absent fields are `Option`; JS truthiness of each
  value is modelled at its use site (`"" `, `0`, `NaN`, `undefined` are
  falsy).
* An `async` function that can reject is `Except String α`; the outcome of
  a `Promise.allSettled` slot is the `Settled` type below.
* The network call `client.chat.completions.create` is a parameter
  `call : ChatRequest → Except String Completion` of each processing
  function; file writes are side effects outside the value-level model
  (the text written is the same `result` string the model returns).
-/

/-- Token usage counts from the chat-completion response
    (`usage.prompt_tokens` / `completion_tokens` / `total_tokens`, types.ts). -/
structure Usage where
  prompt_tokens : Nat
  completion_tokens : Nat
  total_tokens : Nat
deriving Repr, DecidableEq

/-- `PromptFile` of types.ts: one discovered input file. -/
structure PromptFile where
  path : String
  name : String
  content : String
  outputPath : String
deriving Repr, DecidableEq

/-- The `'low' | 'medium' | 'high'` reasoning/search context-size level
    (`ProcessConfig.reasoningLevel`, types.ts). -/
inductive SearchLevel where
  | low
  | medium
  | high
deriving Repr, DecidableEq

/-- `OpenRouterModel.pricing`: the two decimal-string token prices. -/
structure Pricing where
  prompt : String
  completion : String
deriving Repr, DecidableEq

/-- `ModelConfig` of types.ts (sampling parameters; `reasoning` is the
    loosely-typed flag read through `(modelConfig as any).reasoning`,
    absent/falsy modelled as `false`). -/
structure ModelConfig where
  model : String
  temperature : Option ℚ := none
  maxTokens : Option Nat := none
  topP : Option ℚ := none
  frequencyPenalty : Option ℚ := none
  presencePenalty : Option ℚ := none
  reasoning : Bool := false
deriving Repr, DecidableEq

/-- The slice of `ProcessConfig` (types.ts) the processing engine reads:
    `modelConfig`, `model.pricing` (for cost), `concurrent`, `webSearch`,
    `reasoningLevel`.  `concurrent? : number` is `Option Nat`
    (`none` = undefined). -/
structure ProcessConfig where
  directory : String
  modelConfig : ModelConfig
  pricing : Pricing
  concurrent : Option Nat := none
  webSearch : Bool := false
  reasoningLevel : Option SearchLevel := none
deriving Repr, DecidableEq

/-- `ProcessResult` of types.ts. -/
structure ProcessResult where
  file : String
  success : Bool
  result : Option String := none
  error : Option String := none
  duration : Nat
  usage : Option Usage := none
  cost : Option ℚ := none
deriving Repr, DecidableEq

/-- Message role in a chat-completion request. -/
inductive Role where
  | system
  | user
deriving Repr, DecidableEq

/-- The chat-completion request the engine builds (processor.ts lines 79–104):
    `web_search_options` is `some level` exactly when the request carries
    `web_search_options: \x7b search_context_size: level \x7d`; `reasoning` is
    `true` exactly when `reasoning: \x7b\x7d` is attached. -/
structure ChatRequest where
  model : String
  messages : List (Role × String)
  temperature : Option ℚ := none
  max_tokens : Option Nat := none
  top_p : Option ℚ := none
  frequency_penalty : Option ℚ := none
  presence_penalty : Option ℚ := none
  web_search_options : Option SearchLevel := none
  reasoning : Bool := false
deriving Repr, DecidableEq

/-- Lines 89–99 of processor.ts (identical in `processPrompt`,
    `processContextualPrompt` and `processCSVRow`): the web-search
    adjustment of the model name and options.  Returns the final model
    string and the `web_search_options` field. -/
def applyWebSearch (cfg : ProcessConfig) (modelName : String) :
    String × Option SearchLevel :=
  if cfg.webSearch then
    match cfg.reasoningLevel with
    | some level => (modelName, some level)
    | none => (modelName ++ ":online", none)
  else (modelName, none)

/-- The request built by `processPrompt` / `processCSVRow`
    (processor.ts lines 79–104 and 380–402). -/
def buildChatRequest (cfg : ProcessConfig) (messages : List (Role × String)) :
    ChatRequest :=
  let ws := applyWebSearch cfg cfg.modelConfig.model
  { model := ws.1
    messages := messages
    temperature := cfg.modelConfig.temperature
    max_tokens := cfg.modelConfig.maxTokens
    top_p := cfg.modelConfig.topP
    frequency_penalty := cfg.modelConfig.frequencyPenalty
    presence_penalty := cfg.modelConfig.presencePenalty
    web_search_options := ws.2
    reasoning := cfg.modelConfig.reasoning }

/-- The request built by `processContextualPrompt` (processor.ts lines
    237–258): same web-search and reasoning rules, but no
    frequency/presence penalties. -/
def buildContextualRequest (cfg : ProcessConfig) (messages : List (Role × String)) :
    ChatRequest :=
  let ws := applyWebSearch cfg cfg.modelConfig.model
  { model := ws.1
    messages := messages
    temperature := cfg.modelConfig.temperature
    max_tokens := cfg.modelConfig.maxTokens
    top_p := cfg.modelConfig.topP
    web_search_options := ws.2
    reasoning := cfg.modelConfig.reasoning }

/-- Longest digit prefix of a character list: accumulated value, number of
    digits consumed, rest. -/
def takeDigits : List Char → Nat → Nat → Nat × Nat × List Char
  | c :: cs, v, n =>
    if c.isDigit then takeDigits cs (v * 10 + (c.toNat - 48)) (n + 1)
    else (v, n, c :: cs)
  | [], v, n => (v, n, [])

/-- ASCII whitespace as matched by JS `\s` (sufficient for the strings of
    this development). -/
def isJsWs (c : Char) : Bool :=
  c = ' ' ∨ c = '\t' ∨ c = '\n' ∨ c = '\r' ∨ c = '\x0b' ∨ c = '\x0c'

/-- The exponent part of a JS numeric literal, if present. -/
def parseExponent (cs : List Char) : Int :=
  match cs with
  | 'e' :: r | 'E' :: r =>
    match r with
    | '-' :: r2 =>
      let d := takeDigits r2 0 0
      if d.2.1 = 0 then 0 else -(d.1 : Int)
    | '+' :: r2 =>
      let d := takeDigits r2 0 0
      if d.2.1 = 0 then 0 else (d.1 : Int)
    | r2 =>
      let d := takeDigits r2 0 0
      if d.2.1 = 0 then 0 else (d.1 : Int)
  | _ => 0

/-- `parseFloat` on a finite decimal numeral, with `NaN` as `none`
    (`NaN` is falsy wherever the engine tests the computed cost).
    Exact rational value; the sign/zero-ness properties proved below agree
    with the IEEE double `parseFloat` actually produces. -/
def jsParseFloat (s : String) : Option ℚ :=
  let cs := s.data.dropWhile isJsWs
  let signed : ℚ × List Char :=
    match cs with
    | '-' :: r => (-1, r)
    | '+' :: r => (1, r)
    | r => (1, r)
  let ipart := takeDigits signed.2 0 0
  let fpart :=
    match ipart.2.2 with
    | '.' :: r => takeDigits r 0 0
    | r => (0, 0, r)
  if ipart.2.1 + fpart.2.1 = 0 then none
  else
    let mant : ℚ := (ipart.1 : ℚ) + (fpart.1 : ℚ) / ((10 : ℚ) ^ fpart.2.1)
    some (signed.1 * mant * (10 : ℚ) ^ parseExponent fpart.2.2)

/-- Lines 115–122 and 130 of processor.ts (identical in `processCSVRow`
    lines 411–426 and `processContextualPrompt` lines 264–280): the cost
    computation followed by the field write `cost: cost || undefined`.
    With no usage, `cost` stays `0`, which is falsy; a price string that
    parses to `NaN` makes the whole sum `NaN`, also falsy; a computed cost
    of exactly `0` is falsy as well.  In every falsy case the field is
    `undefined` (here `none`). -/
def costOfUsage (pricing : Pricing) (usage : Option Usage) : Option ℚ :=
  match usage with
  | none => none
  | some u =>
    match jsParseFloat pricing.prompt, jsParseFloat pricing.completion with
    | some promptPrice, some completionPrice =>
      let cost : ℚ :=
        (u.prompt_tokens : ℚ) * promptPrice + (u.completion_tokens : ℚ) * completionPrice
      if cost = 0 then none else some cost
    | _, _ => none

/-- `message` object of a completion choice; `content` may be absent or null. -/
structure ChatMessage where
  content : Option String
deriving Repr, DecidableEq

/-- One element of `completion.choices`. -/
structure Choice where
  message : Option ChatMessage
deriving Repr, DecidableEq

/-- The completion response: `choices` and optional `usage`. -/
structure Completion where
  choices : List Choice
  usage : Option Usage
deriving Repr, DecidableEq

/-- `completion.choices[0]?.message?.content || 'No response generated'`
    (processor.ts lines 108, 261, 405): the optional chain collapses to
    `undefined` when any step is missing, and `|| ` replaces every falsy
    value — `undefined`, `null` and the empty string alike — with the
    default text. -/
def responseText (completion : Completion) : String :=
  let c := ((completion.choices.head?.bind Choice.message).bind ChatMessage.content).getD ""
  if c = "" then "No response generated" else c

/-- `processPrompt` (processor.ts lines 67–142), with the network call and
    the measured duration as parameters.  The function never rejects: its
    whole body is a `try`/`catch` whose both branches `return`. -/
def processPrompt (cfg : ProcessConfig) (promptFile : PromptFile)
    (call : ChatRequest → Except String Completion) (duration : Nat) :
    ProcessResult :=
  let request := buildChatRequest cfg [(Role.user, promptFile.content)]
  match call request with
  | .ok completion =>
    { file := promptFile.name
      success := true
      result := some (responseText completion)
      duration := duration
      usage := completion.usage
      cost := costOfUsage cfg.pricing completion.usage }
  | .error e =>
    { file := promptFile.name
      success := false
      error := some e
      duration := duration }

/-- The outcome of one slot of `Promise.allSettled`:
    `\x7b status: 'fulfilled', value \x7d` or `\x7b status: 'rejected', reason \x7d`
    (the reason carried as its message string). -/
inductive Settled (α : Type) where
  | fulfilled (value : α)
  | rejected (reason : String)
deriving Repr, DecidableEq

/-- The JS values that `indexOf` compares with strict equality in the two
    rejection handlers: the batch's freshly created promise objects (and
    the settlement objects `allSettled` returns), identified by object
    identity, versus the rejection reason (the thrown error value).
    Values of different kinds are never the same object. -/
inductive JsRef where
  | obj (id : Nat)
  | errVal (message : String)
deriving Repr, DecidableEq

/-- `Array.prototype.indexOf`: index of the first strictly-equal element,
    `-1` when there is none. -/
def jsIndexOf (l : List JsRef) (x : JsRef) : Int :=
  match l.findIdx? (fun y => y = x) with
  | some i => (i : Int)
  | none => -1

/-- JS array indexing `arr[k]` with a possibly negative index:
    out of range gives `undefined`. -/
def jsIndex {α : Type} (l : List α) (k : Int) : Option α :=
  if k < 0 then none else l[k.toNat]?

/-- `this.config.concurrent || 3` (processor.ts lines 154 and 324):
    `undefined`, `0` and `NaN` are falsy, so the default is 3.
    The result is always at least 1. -/
def effectiveConcurrency (concurrent : Option Nat) : Nat :=
  match concurrent with
  | some n => if n = 0 then 3 else n
  | none => 3

/-- The settlement mapping of one batch in `processAll` (processor.ts lines
    161–174).  `i` is the batch's base offset.  A fulfilled slot yields its
    value.  For a rejected slot the source computes
    `promptFiles[i + batchPromises.indexOf(result.reason)]`: the strict-equality
    search for the error value among the promise objects finds nothing, so the
    index is `i - 1`; when that is out of range (`i = 0`, first batch) the
    subsequent `.name` access throws a TypeError, which rejects `processAll`
    itself; otherwise the failed result names the wrong file. -/
def mapBatchSettlements (promptFiles : List PromptFile) (i : Nat)
    (batchPromises : List JsRef) :
    List (Settled ProcessResult) → Except String (List ProcessResult)
  | [] => .ok []
  | result :: rest => do
    let mapped : ProcessResult ←
      match result with
      | .fulfilled v => .ok v
      | .rejected reason =>
        match jsIndex promptFiles ((i : Int) + jsIndexOf batchPromises (.errVal reason)) with
        | some failedFile =>
          .ok { file := failedFile.name
                success := false
                error := some reason
                duration := 0 }
        | none => .error "TypeError: Cannot read properties of undefined (reading name)"
    let rs ← mapBatchSettlements promptFiles i batchPromises rest
    return mapped :: rs

/-- The batch loop of `processAll` (processor.ts lines 157–177):
    `for (let i = 0; i < promptFiles.length; i += concurrency)` over
    `promptFiles.slice(i, i + concurrency)`.  For `c ≥ 1` (always true for
    `effectiveConcurrency`), `(x :: xs).drop c = xs.drop (c - 1)`, which is
    the structural form used here; each iteration consumes at least one
    element, so a structural fuel above `promptFiles.length` (supplied by
    `processAll`) runs exactly the source's iterations and the
    fuel-exhausted branch is unreachable.  `outcome` gives each file's settlement;
    in the source every task is `this.processPrompt(file)`, which never
    rejects (see `processPrompt`), but the model keeps the general shape the
    code handles. -/
def processAllFrom (promptFiles : List PromptFile) (c : Nat)
    (outcome : PromptFile → Settled ProcessResult) :
    Nat → Nat → List PromptFile → Except String (List ProcessResult)
  | _, _, [] => .ok []
  | 0, _, _ :: _ => .ok []
  | fuel + 1, i, x :: xs => do
    let batch := (x :: xs).take c
    let batchPromises := (List.range batch.length).map (fun j => JsRef.obj (i + j))
    let rs ← mapBatchSettlements promptFiles i batchPromises (batch.map outcome)
    let rest ← processAllFrom promptFiles c outcome fuel (i + c) (xs.drop (c - 1))
    return rs ++ rest

/-- `processAll` (processor.ts lines 144–180), after discovery: the
    empty-list check and the batch loop. -/
def processAll (directory : String) (promptFiles : List PromptFile)
    (concurrent : Option Nat) (outcome : PromptFile → Settled ProcessResult) :
    Except String (List ProcessResult) :=
  if promptFiles.length = 0 then
    .error ("No prompt files found in directory: " ++ directory)
  else
    processAllFrom promptFiles (effectiveConcurrency concurrent) outcome
      (promptFiles.length + 1) 0 promptFiles

/-- The consecutive batches `promptFiles.slice(i, i + c)` the loop visits
    (meaningful for `c ≥ 1`; structural fuel as in `processAllFrom`). -/
def chunkListFuel {α : Type} (c : Nat) : Nat → List α → List (List α)
  | _, [] => []
  | 0, _ :: _ => []
  | fuel + 1, x :: xs => (x :: xs).take c :: chunkListFuel c fuel (xs.drop (c - 1))

/-- The batches of a whole list (fuel instantiated so that the
    fuel-exhausted branch is unreachable for `c ≥ 1`). -/
def chunkList {α : Type} (c : Nat) (l : List α) : List (List α) :=
  chunkListFuel c (l.length + 1) l

/-- A CSV cell value (`CSVRow` of types.ts: `string | number | boolean`;
    numbers restricted to the integral values used here). -/
inductive CSVValue where
  | str (s : String)
  | num (n : Int)
  | boolean (b : Bool)
deriving Repr, DecidableEq

/-- A CSV row: column name to value, in column order. -/
def CSVRow : Type := List (String × CSVValue)

instance : DecidableEq CSVRow := by
  unfold CSVRow
  infer_instance

/-- JS property access `row[key]`: `undefined` when absent. -/
def jsGet (row : CSVRow) (key : String) : Option CSVValue :=
  (row.find? (fun kv => kv.1 = key)).map (fun kv => kv.2)

/-- JS truthiness of a CSV cell value: `""`, `0` and `false` are falsy. -/
def jsTruthy : CSVValue → Bool
  | .str s => s ≠ ""
  | .num n => n ≠ 0
  | .boolean b => b

/-- `String(value)` on a CSV cell value. -/
def jsString : CSVValue → String
  | .str s => s
  | .num n => toString n
  | .boolean b => cond b "true" "false"

/-- `CSVProcessResult` of types.ts.  `rowIndex` is `Int` because the
    rejection handler of `processCSVRows` can compute `-1`; `rowData` is
    `Option` because `rows[rowIndex]` can be `undefined` there. -/
structure CSVProcessResult where
  file : String
  success : Bool
  result : Option String := none
  error : Option String := none
  duration : Nat
  usage : Option Usage := none
  cost : Option ℚ := none
  rowIndex : Int
  rowData : Option CSVRow
  outputFilePath : String
deriving DecidableEq

/-- Line 369 of processor.ts:
    `idColumn && row[idColumn] ? String(row[idColumn]) : row_<rowIndex>`.
    Both `idColumn` (a string) and the row's value are tested for
    truthiness, not mere presence. -/
def computeIdentifier (idColumn : Option String) (row : CSVRow) (rowIndex : Nat) :
    String :=
  let hit : Option CSVValue :=
    match idColumn with
    | some col =>
      if col = "" then none
      else
        match jsGet row col with
        | some v => if jsTruthy v then some v else none
        | none => none
    | none => none
  match hit with
  | some v => jsString v
  | none => "row_" ++ toString rowIndex

/-- `join(outputDirectory, identifier_result.txt)` (line 370), for plain
    relative segments. -/
def csvOutputPath (outputDirectory identifier : String) : String :=
  outputDirectory ++ "/" ++ identifier ++ "_result.txt"

/-- A token of the fragment of ECMAScript regexes that the interpolated
    patterns of line 364 fall into: a literal character, the `\s*` the
    template wraps around the key, or `c+` (one-or-more, greedy) arising
    from a `+` inside a column name. -/
inductive RTok where
  | lit (c : Char)
  | wsStar
  | plus (c : Char)
deriving Repr, DecidableEq

/-- Characters that are regex syntax rather than literals (an unescaped
    `\x7b`/`\x7d` outside a quantifier is a literal in JS patterns). -/
def isRegexSpecial (c : Char) : Bool :=
  c = '\\' ∨ c = '(' ∨ c = ')' ∨ c = '[' ∨ c = ']' ∨ c = '*' ∨ c = '+' ∨
  c = '?' ∨ c = '|' ∨ c = '^' ∨ c = '$' ∨ c = '.'

/-- Parse a pattern string of the modelled fragment into tokens.  `none`
    means the pattern falls outside the fragment; no theorem below depends
    on that branch. -/
def parsePattern : List Char → Option (List RTok)
  | [] => some []
  | '\\' :: 's' :: '*' :: rest => (parsePattern rest).map (fun ts => RTok.wsStar :: ts)
  | '\\' :: _ => none
  | c :: '+' :: rest =>
    if isRegexSpecial c then none
    else (parsePattern rest).map (fun ts => RTok.plus c :: ts)
  | c :: rest =>
    if isRegexSpecial c then none
    else (parsePattern rest).map (fun ts => RTok.lit c :: ts)

/-- Remainders a greedy `\s*` can leave, longest-first (the order the JS
    engine tries on backtracking). -/
def wsStarRemainders (cs : List Char) : List (List Char) :=
  let n := (cs.takeWhile isJsWs).length
  (List.range (n + 1)).map (fun k => cs.drop (n - k))

/-- Remainders a greedy `c+` can leave, longest-first; empty when the next
    character is not `c`. -/
def plusRemainders (c : Char) (cs : List Char) : List (List Char) :=
  let n := (cs.takeWhile (fun d => d = c)).length
  (List.range n).map (fun k => cs.drop (n - k))

/-- Backtracking matcher: all remainders after matching the token list at
    the front of the input, in the engine's preference order (head = the
    match JS commits to). -/
def rmatch : List RTok → List Char → List (List Char)
  | [], cs => [cs]
  | RTok.lit _ :: _, [] => []
  | RTok.lit c :: ts, d :: cs => if d = c then rmatch ts cs else []
  | RTok.wsStar :: ts, cs => ((wsStarRemainders cs).map (rmatch ts)).flatten
  | RTok.plus c :: ts, cs => ((plusRemainders c cs).map (rmatch ts)).flatten

/-- `String.prototype.replace` with a global regex of the fragment: scan
    left to right, at each match emit the replacement and continue after
    it.  (The patterns used here always consume at least one character, so
    the empty-match guard never fires.) -/
def regexReplaceAllFuel (toks : List RTok) (repl : List Char) :
    Nat → List Char → List Char
  | _, [] => []
  | 0, cs => cs
  | fuel + 1, c :: rest =>
    match rmatch toks (c :: rest) with
    | rem :: _ =>
      if rem.length < (c :: rest).length then
        repl ++ regexReplaceAllFuel toks repl fuel rem
      else repl ++ regexReplaceAllFuel toks repl fuel rest
    | [] => c :: regexReplaceAllFuel toks repl fuel rest

/-- The scan over a whole string; every match of the patterns used here
    consumes at least one character, so fuel `length + 1` runs the scan to
    the end and the fuel-exhausted branch is unreachable. -/
def regexReplaceAll (toks : List RTok) (repl : List Char) (cs : List Char) :
    List Char :=
  regexReplaceAllFuel toks repl (cs.length + 1) cs

/-- Line 364 of processor.ts: the pattern source
    `new RegExp("\x7b\x7b\\s*" + key + "\\s*\x7d\x7d", "g")` — the column
    name is spliced into the pattern unescaped. -/
def keyPattern (key : String) : List Char :=
  "\x7b\x7b\\s*".data ++ key.data ++ "\\s*\x7d\x7d".data

/-- Lines 362–366 of processor.ts: for every key of the row, replace the
    key's pattern by the string-coerced value.  `none` models the pattern
    escaping the modelled fragment (in the source, a column name that makes
    `new RegExp` throw turns the row into a failed result; no theorem uses
    this branch). -/
def substituteTemplate (template : String) (row : CSVRow) : Option String :=
  row.foldlM
    (fun acc kv =>
      (parsePattern (keyPattern kv.1)).map
        (fun toks => String.mk (regexReplaceAll toks (jsString kv.2).data acc.data)))
    template

/-- `processCSVRow` (processor.ts lines 357–445), with the network call and
    duration as parameters; like `processPrompt` it never rejects. -/
def processCSVRow (cfg : ProcessConfig) (row : CSVRow) (template : String)
    (outputDirectory : String) (rowIndex : Nat) (idColumn : Option String)
    (call : ChatRequest → Except String Completion) (duration : Nat) :
    CSVProcessResult :=
  let identifier := computeIdentifier idColumn row rowIndex
  match substituteTemplate template row with
  | none =>
    { file := identifier ++ "_result.txt"
      success := false
      error := some "SyntaxError: Invalid regular expression"
      duration := duration
      rowIndex := (rowIndex : Int)
      rowData := some row
      outputFilePath := "" }
  | some processedPrompt =>
    let outputFilePath := csvOutputPath outputDirectory identifier
    let request := buildChatRequest cfg [(Role.user, processedPrompt)]
    match call request with
    | .ok completion =>
      { file := identifier ++ "_result.txt"
        success := true
        result := some (responseText completion)
        duration := duration
        usage := completion.usage
        cost := costOfUsage cfg.pricing completion.usage
        rowIndex := (rowIndex : Int)
        rowData := some row
        outputFilePath := outputFilePath }
    | .error e =>
      { file := identifier ++ "_result.txt"
        success := false
        error := some e
        duration := duration
        rowIndex := (rowIndex : Int)
        rowData := some row
        outputFilePath := "" }

/-- The settlement mapping of one CSV batch (processor.ts lines 334–349).
    For a rejected slot the source computes
    `i + batchResults.indexOf(result.reason)`: the search for the error
    value among the settlement objects finds nothing, so `rowIndex = i - 1`,
    the result is tagged `row_<i-1>` and `rows[i-1]` — `undefined` for the
    first batch, the wrong row afterwards — becomes its `rowData`. -/
def mapCSVBatch (rows : List CSVRow) (i : Nat)
    (batchResults : List (Settled CSVProcessResult)) : List CSVProcessResult :=
  let batchResultObjs := (List.range batchResults.length).map JsRef.obj
  batchResults.map (fun result =>
    match result with
    | .fulfilled v => v
    | .rejected reason =>
      let rowIndex : Int := (i : Int) + jsIndexOf batchResultObjs (.errVal reason)
      { file := "row_" ++ toString rowIndex
        success := false
        error := some reason
        duration := 0
        rowIndex := rowIndex
        rowData := jsIndex rows rowIndex
        outputFilePath := "" })

/-- The batch loop of `processCSVRows` (processor.ts lines 327–352), same
    batching discipline as `processAllFrom`.  `outcome` gives the
    settlement of `processCSVRow` at each global row index (the source
    passes `i + batchIndex`). -/
def processCSVRowsFrom (rows : List CSVRow) (c : Nat)
    (outcome : Nat → Settled CSVProcessResult) :
    Nat → Nat → List CSVRow → List CSVProcessResult
  | _, _, [] => []
  | 0, _, _ :: _ => []
  | fuel + 1, i, x :: xs =>
    let batch := (x :: xs).take c
    mapCSVBatch rows i ((List.range batch.length).map (fun j => outcome (i + j)))
      ++ processCSVRowsFrom rows c outcome fuel (i + c) (xs.drop (c - 1))

/-- `processCSVRows` (processor.ts lines 323–355). -/
def processCSVRows (rows : List CSVRow) (concurrent : Option Nat)
    (outcome : Nat → Settled CSVProcessResult) : List CSVProcessResult :=
  processCSVRowsFrom rows (effectiveConcurrency concurrent) outcome
    (rows.length + 1) 0 rows

/-- `String.prototype.trim` (ASCII whitespace suffices here). -/
def jsTrim (cs : List Char) : List Char :=
  ((cs.dropWhile isJsWs).reverse.dropWhile isJsWs).reverse

/-- The character class `[^\x7d]` of the injection regex. -/
def notCloseBrace (c : Char) : Bool :=
  c ≠ '\x7d'

/-- One attempted match of the fixed injection regex
    `/\x7b\x7b\s*([^\x7d]+)\s*\x7d\x7d/g` (processor.ts line 194) on the text
    following the two opening braces: succeeds iff at least one character
    stands before the first closing brace and that brace is doubled.  The
    greedy `\s*` consumes the whitespace prefix and the greedy `[^\x7d]+`
    everything up to the first closing brace — including trailing
    whitespace, which therefore stays in the capture; only when the whole
    segment is whitespace does backtracking leave the final character as
    the capture. -/
def placeholderCapture (cs : List Char) : Option (List Char) :=
  let seg := cs.takeWhile notCloseBrace
  match cs.dropWhile notCloseBrace with
  | '\x7d' :: '\x7d' :: _ =>
    if seg.isEmpty then none
    else
      let r := seg.dropWhile isJsWs
      some (if r.isEmpty then seg.drop (seg.length - 1) else r)
  | _ => none

/-- The scan position right after a successful placeholder match
    (`lastIndex` after the closing braces). -/
def afterPlaceholder (cs : List Char) : List Char :=
  (cs.dropWhile notCloseBrace).drop 2

/-- The template-injection replacement scan of `processContextualPrompt`
    (processor.ts lines 193–209): at each match, substitute the referenced
    context file's content and record its path, or — when no context file's
    name equals the trimmed capture — substitute
    `[Warning: Context file "<capture>" not found]` with the raw,
    untrimmed capture.  Returns the substituted text and the recorded
    paths (the `explicitlyReferencedFiles` set). -/
def injectScanFuel (contextFiles : List PromptFile) :
    Nat → List Char → List Char × List String
  | _, [] => ([], [])
  | 0, cs => (cs, [])
  | fuel + 1, '\x7b' :: '\x7b' :: rest =>
    match placeholderCapture rest with
    | some capture =>
      let next := injectScanFuel contextFiles fuel (afterPlaceholder rest)
      match contextFiles.find? (fun f => f.name = String.mk (jsTrim capture)) with
      | some referencedFile =>
        (referencedFile.content.data ++ next.1, referencedFile.path :: next.2)
      | none =>
        ("[Warning: Context file \"".data ++ capture ++ "\" not found]".data ++ next.1,
          next.2)
    | none =>
      let next := injectScanFuel contextFiles fuel ('\x7b' :: rest)
      ('\x7b' :: next.1, next.2)
  | fuel + 1, c :: rest =>
    let next := injectScanFuel contextFiles fuel rest
    (c :: next.1, next.2)

/-- The scan over the whole main prompt; each step consumes at least one
    character (a successful match at least four), so fuel `length + 1`
    runs the scan to the end and the fuel-exhausted branch is
    unreachable. -/
def injectScan (contextFiles : List PromptFile) (cs : List Char) :
    List Char × List String :=
  injectScanFuel contextFiles (cs.length + 1) cs

/-- The substituted main prompt text of `processContextualPrompt`. -/
def injectTemplate (contextFiles : List PromptFile) (s : String) : String :=
  String.mk (injectScan contextFiles s.data).1

/-- `processContextualPrompt` (processor.ts lines 182–290): template
    injection, the implicit context block for unreferenced files, the
    request, and the same result/cost computation as `processPrompt`.
    Its whole body is a `try`/`catch` returning in both branches, so it
    always returns a `ProcessResult`. -/
def processContextualPrompt (cfg : ProcessConfig) (mainPromptFile : PromptFile)
    (contextFiles : List PromptFile) (call : ChatRequest → Except String Completion)
    (duration : Nat) : ProcessResult :=
  let scan := injectScan contextFiles mainPromptFile.content.data
  let mainPromptContent := String.mk scan.1
  let implicitContextFiles := contextFiles.filter (fun f => !(scan.2.contains f.path))
  let contextBlock := String.intercalate "\n" (implicitContextFiles.map (fun f =>
    "--- CONTEXT FROM " ++ f.name ++ " ---\n" ++ f.content ++ "\n"))
  let messages :=
    (if implicitContextFiles.isEmpty then [] else
      [(Role.system,
        "The following information is provided as context from other files in the directory. Use it to inform your response.\n\n"
          ++ contextBlock)])
    ++ [(Role.user, mainPromptContent)]
  match call (buildContextualRequest cfg messages) with
  | .ok completion =>
    { file := mainPromptFile.name
      success := true
      result := some (responseText completion)
      duration := duration
      usage := completion.usage
      cost := costOfUsage cfg.pricing completion.usage }
  | .error e =>
    { file := mainPromptFile.name
      success := false
      error := some e
      duration := duration }

/-! Concrete fixtures used by the closed theorems and witnesses below. -/

/-- Five discovered prompt files (the batching example of the spec). -/
def exFiles : List PromptFile :=
  [⟨"/p/f0.txt", "f0.txt", "c0", "/p/f0_result.txt"⟩,
   ⟨"/p/f1.txt", "f1.txt", "c1", "/p/f1_result.txt"⟩,
   ⟨"/p/f2.txt", "f2.txt", "c2", "/p/f2_result.txt"⟩,
   ⟨"/p/f3.txt", "f3.txt", "c3", "/p/f3_result.txt"⟩,
   ⟨"/p/f4.txt", "f4.txt", "c4", "/p/f4_result.txt"⟩]

/-- A total per-file task, as `processPrompt` is in the source. -/
def exTask (f : PromptFile) : ProcessResult :=
  { file := f.name, success := true, result := some "ok", duration := 1 }

/-- Three CSV rows. -/
def exRows : List CSVRow :=
  [[("a", CSVValue.str "1")], [("a", CSVValue.str "2")], [("a", CSVValue.str "3")]]

/-- A fulfilled per-row result at global index `j`. -/
def exCSVResult (j : Nat) : CSVProcessResult :=
  { file := "r" ++ toString j, success := true, duration := 1,
    rowIndex := (j : Int), rowData := exRows[j]?, outputFilePath := "" }

/-- A base configuration: web search off, default pricing. -/
def cfgW : ProcessConfig :=
  ⟨"d", { model := "m" }, ⟨"0.000003", "0.000015"⟩, some 2, false, none⟩

/-- Web search on with an explicit context-size level. -/
def cfgWS : ProcessConfig := { cfgW with webSearch := true, reasoningLevel := some .high }

/-- Web search on without a level. -/
def cfgWO : ProcessConfig := { cfgW with webSearch := true, reasoningLevel := none }

/-- A configuration whose catalog pricing strings are `"-1"` and `"0"`. -/
def cfgNeg : ProcessConfig := ⟨"d", { model := "m" }, ⟨"-1", "0"⟩, none, false, none⟩

/-- A configuration whose pricing strings are both `"0"`. -/
def cfgZero : ProcessConfig := ⟨"d", { model := "m" }, ⟨"0", "0"⟩, none, false, none⟩

/-- A prompt file fixture. -/
def pfW : PromptFile := ⟨"/p/a.txt", "a.txt", "hello", "/p/a_result.txt"⟩

/-- A completion carrying text and no usage. -/
def compW : Completion := ⟨[⟨some ⟨some "R"⟩⟩], none⟩

/-- A completion with usage `(100, 50, 150)`. -/
def compUsage : Completion := ⟨[⟨some ⟨some "text"⟩⟩], some ⟨100, 50, 150⟩⟩

/-- A completion with usage `(1, 0, 1)`. -/
def compOne : Completion := ⟨[⟨some ⟨some "text"⟩⟩], some ⟨1, 0, 1⟩⟩

/-- A row whose `id` column is present but holds the empty string. -/
def rowEmptyId : CSVRow := [("id", CSVValue.str "")]

/-- A row whose `id` column holds a truthy value. -/
def rowAlpha : CSVRow := [("id", CSVValue.str "alpha")]

/-! Theorems. -/

/-- C7: for every chat-completion request built by the engine — web search
    enabled with a context-size level set attaches `web_search_options`
    with `search_context_size` equal to that level and leaves the model
    identifier unchanged; web search enabled without a level appends
    `:online` to the model and attaches no `web_search_options`; web
    search disabled makes neither modification.  Stated for both request
    builders (`processPrompt`/`processCSVRow` and
    `processContextualPrompt`). -/
theorem request_web_search_modes (cfg : ProcessConfig) (msgs : List (Role × String)) :
    (∀ level, cfg.webSearch = true → cfg.reasoningLevel = some level →
      (buildChatRequest cfg msgs).web_search_options = some level ∧
      (buildChatRequest cfg msgs).model = cfg.modelConfig.model ∧
      (buildContextualRequest cfg msgs).web_search_options = some level ∧
      (buildContextualRequest cfg msgs).model = cfg.modelConfig.model) ∧
    (cfg.webSearch = true → cfg.reasoningLevel = none →
      (buildChatRequest cfg msgs).model = cfg.modelConfig.model ++ ":online" ∧
      (buildChatRequest cfg msgs).web_search_options = none ∧
      (buildContextualRequest cfg msgs).model = cfg.modelConfig.model ++ ":online" ∧
      (buildContextualRequest cfg msgs).web_search_options = none) ∧
    (cfg.webSearch = false →
      (buildChatRequest cfg msgs).model = cfg.modelConfig.model ∧
      (buildChatRequest cfg msgs).web_search_options = none ∧
      (buildContextualRequest cfg msgs).model = cfg.modelConfig.model ∧
      (buildContextualRequest cfg msgs).web_search_options = none) := by
  refine ⟨?_, ?_, ?_⟩ <;> intros <;>
    simp_all [buildChatRequest, buildContextualRequest, applyWebSearch]

/-- Witness for C7 at the three concrete configurations. -/
theorem request_web_search_modes_witness :
    (buildChatRequest cfgWS [] ).web_search_options = some SearchLevel.high ∧
    (buildChatRequest cfgWS []).model = "m" ∧
    (buildChatRequest cfgWO []).model = "m:online" ∧
    (buildChatRequest cfgWO []).web_search_options = none ∧
    (buildChatRequest cfgW []).model = "m" ∧
    (buildChatRequest cfgW []).web_search_options = none :=
  ⟨((request_web_search_modes cfgWS []).1 SearchLevel.high rfl rfl).1,
   ((request_web_search_modes cfgWS []).1 SearchLevel.high rfl rfl).2.1,
   ((request_web_search_modes cfgWO []).2.1 rfl rfl).1,
   ((request_web_search_modes cfgWO []).2.1 rfl rfl).2.1,
   ((request_web_search_modes cfgW []).2.2 rfl).1,
   ((request_web_search_modes cfgW []).2.2 rfl).2.1⟩

/-- C8: a successful completion whose usage is present but whose computed
    cost is exactly zero yields a result with usage recorded and the cost
    field absent (`cost || undefined` discards `0`). -/
theorem zero_cost_absent (cfg : ProcessConfig) (pf : PromptFile) (comp : Completion)
    (u : Usage) (d : Nat) (pp cp : ℚ)
    (hu : comp.usage = some u)
    (hp : jsParseFloat cfg.pricing.prompt = some pp)
    (hc : jsParseFloat cfg.pricing.completion = some cp)
    (hz : (u.prompt_tokens : ℚ) * pp + (u.completion_tokens : ℚ) * cp = 0) :
    (processPrompt cfg pf (fun _ => .ok comp) d).usage = some u ∧
    (processPrompt cfg pf (fun _ => .ok comp) d).cost = none := by
  constructor
  · simp [processPrompt, hu]
  · simp [processPrompt, costOfUsage, hu, hp, hc, hz]

/-- Witness for C8: both prices `"0"`, usage `(100, 50, 150)`. -/
theorem zero_cost_absent_witness :
    (processPrompt cfgZero pfW (fun _ => .ok compUsage) 5).usage = some ⟨100, 50, 150⟩ ∧
    (processPrompt cfgZero pfW (fun _ => .ok compUsage) 5).cost = none :=
  zero_cost_absent cfgZero pfW compUsage ⟨100, 50, 150⟩ 5 0 0 rfl
    (by simp [cfgZero, jsParseFloat, takeDigits, parseExponent, isJsWs])
    (by simp [cfgZero, jsParseFloat, takeDigits, parseExponent, isJsWs])
    (by norm_num)

/-- C10: a first choice whose message content is the empty string (present
    but empty) produces the same literal `"No response generated"` as an
    absent content, in the result text and the stored result field. -/
theorem empty_content_default_text (rest : List Choice) (u : Option Usage)
    (cfg : ProcessConfig) (pf : PromptFile) (d : Nat) :
    responseText ⟨{ message := some { content := some "" } } :: rest, u⟩
      = "No response generated" ∧
    responseText ⟨{ message := some { content := none } } :: rest, u⟩
      = "No response generated" ∧
    (processPrompt cfg pf
        (fun _ => .ok ⟨{ message := some { content := some "" } } :: rest, u⟩) d).result
      = some "No response generated" := by
  refine ⟨rfl, rfl, ?_⟩
  simp [processPrompt, responseText]

/-- C9: the column key is spliced unescaped into the substitution pattern,
    so with the column name `a+b` the literal placeholder
    `\x7b\x7b a+b \x7d\x7d` is not replaced (its `+` is a quantifier and the
    pattern matches different text such as `\x7b\x7b aaab \x7d\x7d`). -/
theorem csv_template_regex_interpolation :
    substituteTemplate "Describe \x7b\x7b a+b \x7d\x7d now" [("a+b", CSVValue.str "VALUE")]
      = some "Describe \x7b\x7b a+b \x7d\x7d now" ∧
    "Describe \x7b\x7b a+b \x7d\x7d now" ≠ "Describe VALUE now" ∧
    substituteTemplate "Describe \x7b\x7b aaab \x7d\x7d now" [("a+b", CSVValue.str "VALUE")]
      = some "Describe VALUE now" := by
  refine ⟨?_, ?_, ?_⟩ <;> decide

/-- When both catalog prices parse to non-negative rationals, any present
    cost value is non-negative (helper shared by the result-level
    statements). -/
theorem costOfUsage_nonneg (pricing : Pricing) (usage : Option Usage) (pp cp q : ℚ)
    (hp : jsParseFloat pricing.prompt = some pp) (hpp : 0 ≤ pp)
    (hc : jsParseFloat pricing.completion = some cp) (hcp : 0 ≤ cp)
    (hq : costOfUsage pricing usage = some q) : 0 ≤ q := by
  cases usage with
  | none => simp [costOfUsage] at hq
  | some u =>
    simp only [costOfUsage, hp, hc] at hq
    by_cases h0 :
        (u.prompt_tokens : ℚ) * pp + (u.completion_tokens : ℚ) * cp = 0
    · rw [if_pos h0] at hq
      exact absurd hq (by simp)
    · rw [if_neg h0] at hq
      simp only [Option.some.injEq] at hq
      rw [← hq]
      have h1 : (0 : ℚ) ≤ (u.prompt_tokens : ℚ) * pp :=
        mul_nonneg (Nat.cast_nonneg _) hpp
      have h2 : (0 : ℚ) ≤ (u.completion_tokens : ℚ) * cp :=
        mul_nonneg (Nat.cast_nonneg _) hcp
      linarith

/-- C5 counterexample: with the catalog price strings `"-1"` and `"0"` and
    usage `(1, 0, 1)`, the produced result carries a present, negative
    cost, so "the cost field, when present, is non-negative" fails as a
    property of the code over all inputs. -/
theorem cost_negative_counterexample :
    (processPrompt cfgNeg pfW (fun _ => .ok compOne) 7).cost = some (-1 : ℚ) ∧
    ¬ (0 : ℚ) ≤ -1 := by
  constructor
  · simp [processPrompt, costOfUsage, compOne, cfgNeg, jsParseFloat, takeDigits,
      parseExponent, isJsWs]
  · norm_num

/-- C5 (amended): whenever the selected model's two price strings parse to
    non-negative values — as every real catalog price does — every cost
    field the engine produces is non-negative when present, and when the
    service returns no usage information the cost field is absent
    (undefined), not zero.  Stated for all three processing modes. -/
theorem cost_field_amended (cfg : ProcessConfig) (pp cp : ℚ)
    (hp : jsParseFloat cfg.pricing.prompt = some pp) (hpp : 0 ≤ pp)
    (hc : jsParseFloat cfg.pricing.completion = some cp) (hcp : 0 ≤ cp) :
    (∀ pf call d q, (processPrompt cfg pf call d).cost = some q → 0 ≤ q) ∧
    (∀ pf comp d, comp.usage = none →
      (processPrompt cfg pf (fun _ => .ok comp) d).cost = none) ∧
    (∀ row template odir k idc call d q,
      (processCSVRow cfg row template odir k idc call d).cost = some q → 0 ≤ q) ∧
    (∀ row template odir k idc comp d, comp.usage = none →
      (processCSVRow cfg row template odir k idc (fun _ => .ok comp) d).cost = none) ∧
    (∀ mf ctx call d q,
      (processContextualPrompt cfg mf ctx call d).cost = some q → 0 ≤ q) := by
  have base : ∀ usage q, costOfUsage cfg.pricing usage = some q → 0 ≤ q :=
    fun usage q hq => costOfUsage_nonneg cfg.pricing usage pp cp q hp hpp hc hcp hq
  refine ⟨?_, ?_, ?_, ?_, ?_⟩
  · intro pf call d q hq
    simp only [processPrompt] at hq
    split at hq
    · exact base _ q hq
    · simp at hq
  · intro pf comp d hcomp
    simp [processPrompt, costOfUsage, hcomp]
  · intro row template odir k idc call d q hq
    simp only [processCSVRow] at hq
    split at hq
    · simp at hq
    · split at hq
      · exact base _ q hq
      · simp at hq
  · intro row template odir k idc comp d hcomp
    simp only [processCSVRow]
    split
    · rfl
    · simp [costOfUsage, hcomp]
  · intro mf ctx call d q hq
    simp only [processContextualPrompt] at hq
    split at hq
    · exact base _ q hq
    · simp at hq

/-- Witness for C5 (amended) at the concrete configuration with prices
    `"0.000003"` and `"0.000015"` and a completion carrying no usage. -/
theorem cost_field_amended_witness :
    (processPrompt cfgW pfW (fun _ => .ok compW) 3).cost = none :=
  (cost_field_amended cfgW (3 / 1000000) (15 / 1000000)
    (by simp [cfgW, jsParseFloat, takeDigits, parseExponent, isJsWs]; norm_num)
    (by norm_num)
    (by simp [cfgW, jsParseFloat, takeDigits, parseExponent, isJsWs]; norm_num)
    (by norm_num)).2.1 pfW compW 3 rfl

/-- C6 counterexample: a row whose configured identifier column is present
    but holds the empty string — a falsy value — gets identifier `row_0`,
    not the string coercion `""` of the present value: the code tests the
    value's truthiness, not its presence. -/
theorem csv_identifier_counterexample :
    jsGet rowEmptyId "id" = some (CSVValue.str "") ∧
    jsString (CSVValue.str "") = "" ∧
    computeIdentifier (some "id") rowEmptyId 0 = "row_0" ∧
    ("row_0" : String) ≠ "" ∧
    (processCSVRow cfgW rowEmptyId "Hi" "out" 0 (some "id")
        (fun _ => .ok compW) 5).outputFilePath = "out/row_0_result.txt" := by
  refine ⟨rfl, rfl, rfl, by decide, ?_⟩
  decide

/-- C6 (amended): the output identifier equals the string coercion of the
    row's value in the identifier column whenever an identifier column is
    configured (non-empty) and the row's value there is truthy (for string
    cells: non-empty); otherwise — including a present-but-empty value —
    it is `row_<index>`.  The output file path is
    `<outputDir>/<identifier>_result.txt` on the success path. -/
theorem csv_identifier_amended (cfg : ProcessConfig) (row : CSVRow)
    (template outputDirectory p : String) (k : Nat) (idCol : String) (v : CSVValue)
    (comp : Completion) (d : Nat)
    (hcol : idCol ≠ "") (hv : jsGet row idCol = some v) (ht : jsTruthy v = true)
    (hsub : substituteTemplate template row = some p) :
    computeIdentifier (some idCol) row k = jsString v ∧
    computeIdentifier none row k = "row_" ++ toString k ∧
    (processCSVRow cfg row template outputDirectory k (some idCol)
        (fun _ => .ok comp) d).outputFilePath
      = outputDirectory ++ "/" ++ jsString v ++ "_result.txt" ∧
    (processCSVRow cfg row template outputDirectory k (some idCol)
        (fun _ => .ok comp) d).file = jsString v ++ "_result.txt" := by
  have hid : computeIdentifier (some idCol) row k = jsString v := by
    simp [computeIdentifier, hcol, hv, ht]
  refine ⟨hid, rfl, ?_, ?_⟩ <;>
    simp [processCSVRow, hsub, hid, csvOutputPath]

/-- Witness for C6 (amended): identifier column `id` holding `"alpha"`. -/
theorem csv_identifier_amended_witness :
    computeIdentifier (some "id") rowAlpha 0 = jsString (CSVValue.str "alpha") ∧
    computeIdentifier none rowAlpha 0 = "row_" ++ toString 0 ∧
    (processCSVRow cfgW rowAlpha "Hi" "out" 0 (some "id")
        (fun _ => .ok compW) 5).outputFilePath
      = "out" ++ "/" ++ jsString (CSVValue.str "alpha") ++ "_result.txt" ∧
    (processCSVRow cfgW rowAlpha "Hi" "out" 0 (some "id")
        (fun _ => .ok compW) 5).file = jsString (CSVValue.str "alpha") ++ "_result.txt" :=
  csv_identifier_amended cfgW rowAlpha "Hi" "out" "Hi" 0 "id" (CSVValue.str "alpha")
    compW 5 (by decide) rfl rfl (by decide)

/-- `takeWhile`/`dropWhile` split at the first failing element, when the
    whole prefix satisfies the predicate (helper). -/
theorem takeWhile_append_stop (p : Char → Bool) (l : List Char) (d : Char)
    (m : List Char) (hl : ∀ c ∈ l, p c = true) (hd : p d = false) :
    (l ++ d :: m).takeWhile p = l ∧ (l ++ d :: m).dropWhile p = d :: m := by
  induction l with
  | nil => simp [List.takeWhile_cons, List.dropWhile_cons, hd]
  | cons a t ih =>
    have ha : p a = true := hl a (by simp)
    have iht := ih (fun c hc => hl c (by simp [hc]))
    simp [List.takeWhile_cons, List.dropWhile_cons, ha, iht.1, iht.2]

/-- C3 counterexample: with main prompt `\x7b\x7b missing.txt \x7d\x7d` and no
    context files, the substituted prompt contains the warning built from
    the raw capture `missing.txt ` — trailing space included — not from
    the trimmed placeholder text the claim specifies. -/
theorem contextual_warning_counterexample :
    injectTemplate [] "\x7b\x7b missing.txt \x7d\x7d"
      = "[Warning: Context file \"missing.txt \" not found]" ∧
    "[Warning: Context file \"missing.txt \" not found]"
      ≠ "[Warning: Context file \"missing.txt\" not found]" :=
  ⟨by decide, by decide⟩

/-- C3 (amended): for a placeholder `\x7b\x7b <name> \x7d\x7d` whose name
    contains no closing brace, starts with a non-whitespace character and
    matches no context file's name, the substitution inserts exactly
    `[Warning: Context file "<capture>" not found]` where `<capture>` is
    the raw regex capture: the leading whitespace is consumed by the
    match's `\s*` but the trailing whitespace is swallowed by the greedy
    `[^\x7d]+` and stays in the warning; contextual processing still
    returns a result (it never aborts). -/
theorem contextual_warning_raw_capture (contextFiles : List PromptFile)
    (n : List Char) (hne : n ≠ []) (hnb : '\x7d' ∉ n)
    (hhead : ∀ c, n.head? = some c → isJsWs c = false)
    (hmiss : ∀ f ∈ contextFiles, f.name ≠ String.mk (jsTrim (n ++ [' ']))) :
    (injectScan contextFiles
        ('\x7b' :: '\x7b' :: ' ' :: (n ++ [' ', '\x7d', '\x7d']))).1
      = "[Warning: Context file \"".data ++ (n ++ [' ']) ++ "\" not found]".data ∧
    (∀ cfg mf call d,
      (processContextualPrompt cfg mf contextFiles call d).file = mf.name) := by
  obtain ⟨h0, t0, rfl⟩ : ∃ h0 t0, n = h0 :: t0 := by
    cases n with
    | nil => exact absurd rfl hne
    | cons a b => exact ⟨a, b, rfl⟩
  have hh0 : isJsWs h0 = false := hhead h0 rfl
  have harr : ' ' :: h0 :: (t0 ++ [' ', '\x7d', '\x7d'])
      = (' ' :: h0 :: (t0 ++ [' '])) ++ '\x7d' :: ['\x7d'] := by simp
  have hl : ∀ c ∈ (' ' :: h0 :: (t0 ++ [' '])), notCloseBrace c = true := by
    intro c hc
    have hcn : c ≠ '\x7d' := by
      rcases List.mem_cons.mp hc with rfl | hc2
      · decide
      rcases List.mem_cons.mp hc2 with rfl | hc3
      · exact fun hEq => hnb (List.mem_cons.mpr (Or.inl hEq.symm))
      rcases List.mem_append.mp hc3 with hc4 | hc5
      · exact fun hEq => hnb (List.mem_cons.mpr (Or.inr (hEq ▸ hc4)))
      · rcases List.mem_singleton.mp hc5 with rfl
        decide
    simpa [notCloseBrace] using hcn
  have hsplit := takeWhile_append_stop notCloseBrace
    (' ' :: h0 :: (t0 ++ [' '])) '\x7d' ['\x7d'] hl (by decide)
  have hTake : (' ' :: h0 :: (t0 ++ [' ', '\x7d', '\x7d'])).takeWhile
      notCloseBrace = ' ' :: h0 :: (t0 ++ [' ']) := by
    rw [harr]; exact hsplit.1
  have hDrop : (' ' :: h0 :: (t0 ++ [' ', '\x7d', '\x7d'])).dropWhile
      notCloseBrace = '\x7d' :: ['\x7d'] := by
    rw [harr]; exact hsplit.2
  have hw1 : isJsWs ' ' = true := by decide
  have hws : (' ' :: h0 :: (t0 ++ [' '])).dropWhile isJsWs
      = h0 :: (t0 ++ [' ']) := by
    simp [List.dropWhile_cons, hw1, hh0]
  have hcap : placeholderCapture (' ' :: h0 :: (t0 ++ [' ', '\x7d', '\x7d']))
      = some (h0 :: (t0 ++ [' '])) := by
    simp only [placeholderCapture, hTake, hDrop, hws]
    simp
  have hafter : afterPlaceholder (' ' :: h0 :: (t0 ++ [' ', '\x7d', '\x7d'])) = [] := by
    simp [afterPlaceholder, hDrop]
  have hfind : contextFiles.find?
      (fun f => f.name = String.mk (jsTrim (h0 :: (t0 ++ [' '])))) = none :=
    List.find?_eq_none.mpr (fun f hf => by simpa using hmiss f hf)
  constructor
  · simp only [injectScan, injectScanFuel, List.cons_append, hcap, hfind, hafter]
    simp
  · intro cfg mf call d
    simp only [processContextualPrompt]
    split <;> rfl

/-- Witness for C3 (amended): the spec's own example name `missing.txt`. -/
theorem contextual_warning_raw_capture_witness :
    (injectScan []
        ('\x7b' :: '\x7b' :: ' ' :: ("missing.txt".data ++ [' ', '\x7d', '\x7d']))).1
      = "[Warning: Context file \"".data ++ ("missing.txt".data ++ [' ']) ++ "\" not found]".data ∧
    (∀ cfg mf call d,
      (processContextualPrompt cfg mf [] call d).file = mf.name) :=
  contextual_warning_raw_capture [] "missing.txt".data (by decide) (by decide)
    (by intro c hc; injection hc with h; subst h; decide) (by simp)

/-- `Except` bind on a success value (helper). -/
theorem exceptBind_ok {α β : Type} (a : α) (f : α → Except String β) :
    ((Except.ok a : Except String α) >>= f) = f a := rfl

/-- A batch all of whose slots are fulfilled maps to exactly its values
    (helper: in the source every task is `processPrompt`, which never
    rejects). -/
theorem mapBatchSettlements_fulfilled (promptFiles : List PromptFile) (i : Nat)
    (batchPromises : List JsRef) (rs : List ProcessResult) :
    mapBatchSettlements promptFiles i batchPromises (rs.map Settled.fulfilled)
      = .ok rs := by
  induction rs with
  | nil => rfl
  | cons r t ih =>
    simp only [List.map_cons, mapBatchSettlements, ih]
    rfl

/-- With a total task, the batch loop returns the tasks' results in input
    order (helper, by induction on the structural fuel). -/
theorem processAllFrom_fulfilled (promptFiles : List PromptFile) (c : Nat)
    (task : PromptFile → ProcessResult) (hc : 1 ≤ c) :
    ∀ (fuel : Nat) (l : List PromptFile) (i : Nat), l.length < fuel →
      processAllFrom promptFiles c (fun f => Settled.fulfilled (task f)) fuel i l
        = .ok (l.map task) := by
  intro fuel
  induction fuel with
  | zero =>
    intro l i h
    omega
  | succ fu ih =>
    intro l i h
    match l with
    | [] => rfl
    | x :: xs =>
      cases c with
      | zero => omega
      | succ k =>
        simp only [processAllFrom]
        have hmap : ((x :: xs).take (k + 1)).map (fun f => Settled.fulfilled (task f))
            = (((x :: xs).take (k + 1)).map task).map Settled.fulfilled := by
          rw [List.map_map]
          rfl
        rw [hmap, mapBatchSettlements_fulfilled, exceptBind_ok]
        have hrec := ih (xs.drop (k + 1 - 1)) (i + (k + 1)) (by
          simp only [List.length_cons] at h
          simp only [List.length_drop]
          omega)
        rw [hrec, exceptBind_ok]
        have hjoin : (x :: xs).take (k + 1) ++ xs.drop (k + 1 - 1) = x :: xs := by
          simp [List.take_succ_cons, List.take_append_drop]
        calc (pure ((((x :: xs).take (k + 1)).map task)
                ++ ((xs.drop (k + 1 - 1)).map task)) : Except String _)
            = .ok (((x :: xs).take (k + 1) ++ xs.drop (k + 1 - 1)).map task) := by
              rw [List.map_append]; rfl
          _ = .ok ((x :: xs).map task) := by rw [hjoin]

/-- The chunks of the loop concatenate back to the input (helper). -/
theorem chunkListFuel_flatten {α : Type} (c : Nat) (hc : 1 ≤ c) :
    ∀ (fuel : Nat) (l : List α), l.length < fuel →
      (chunkListFuel c fuel l).flatten = l := by
  intro fuel
  induction fuel with
  | zero =>
    intro l h
    omega
  | succ fu ih =>
    intro l h
    match l with
    | [] => rfl
    | x :: xs =>
      cases c with
      | zero => omega
      | succ k =>
        simp only [chunkListFuel, List.flatten_cons]
        rw [ih (xs.drop (k + 1 - 1)) (by
          simp only [List.length_cons] at h
          simp only [List.length_drop]
          omega)]
        simp [List.take_succ_cons, List.take_append_drop]

/-- Every chunk except possibly the last has exactly the configured size
    (helper). -/
theorem chunkListFuel_dropLast {α : Type} (c : Nat) (hc : 1 ≤ c) :
    ∀ (fuel : Nat) (l : List α), l.length < fuel →
      ∀ b ∈ (chunkListFuel c fuel l).dropLast, b.length = c := by
  intro fuel
  induction fuel with
  | zero =>
    intro l h
    omega
  | succ fu ih =>
    intro l h b hb
    match l with
    | [] => simp [chunkListFuel] at hb
    | x :: xs =>
      cases c with
      | zero => omega
      | succ k =>
        simp only [chunkListFuel] at hb
        cases hrest : chunkListFuel (k + 1) fu (xs.drop (k + 1 - 1)) with
        | nil =>
          rw [hrest] at hb
          simp at hb
        | cons r rs =>
          rw [hrest, List.dropLast_cons₂] at hb
          rcases List.mem_cons.mp hb with rfl | hb2
          · have hne : xs.drop (k + 1 - 1) ≠ [] := by
              intro h0
              rw [h0] at hrest
              cases fu <;> simp [chunkListFuel] at hrest
            have hlen : k + 1 ≤ xs.length + 1 := by
              rcases Nat.lt_or_ge xs.length (k + 1 - 1) with hcon | hge
              · exact absurd (List.drop_eq_nil_iff.mpr (by omega)) hne
              · omega
            simp only [List.length_take, List.length_cons]
            omega
          · exact ih (xs.drop (k + 1 - 1)) (by
              simp only [List.length_cons] at h
              simp only [List.length_drop]
              omega) b (by rw [hrest]; exact hb2)

/-- Every chunk is nonempty and no longer than the configured size
    (helper). -/
theorem chunkListFuel_mem {α : Type} (c : Nat) (hc : 1 ≤ c) :
    ∀ (fuel : Nat) (l : List α), l.length < fuel →
      ∀ b ∈ chunkListFuel c fuel l, b ≠ [] ∧ b.length ≤ c := by
  intro fuel
  induction fuel with
  | zero =>
    intro l h
    omega
  | succ fu ih =>
    intro l h b hb
    match l with
    | [] => simp [chunkListFuel] at hb
    | x :: xs =>
      cases c with
      | zero => omega
      | succ k =>
        simp only [chunkListFuel] at hb
        rcases List.mem_cons.mp hb with rfl | hb2
        · refine ⟨by simp [List.take_succ_cons], ?_⟩
          simp only [List.length_take, List.length_cons]
          omega
        · exact ih (xs.drop (k + 1 - 1)) (by
            simp only [List.length_cons] at h
            simp only [List.length_drop]
            omega) b hb2

/-- C1: for every discovered file list and concurrency `c ≥ 1` (default 3),
    `processAll` partitions the files into consecutive batches of size `c`
    (final batch possibly shorter), runs the batches in sequence, and —
    the per-file task being total, as `processPrompt` is — returns exactly
    one result per file, in discovery order, the k-th result produced from
    the k-th file, independently of completion order inside a batch
    (`Promise.allSettled` reports slots by position, which is how the model
    indexes outcomes). -/
theorem processAll_batches_ordered (directory : String) (files : List PromptFile)
    (task : PromptFile → ProcessResult) (c : Nat) (hc : 1 ≤ c) (hne : files ≠ []) :
    processAll directory files (some c) (fun f => Settled.fulfilled (task f))
      = .ok (files.map task) ∧
    effectiveConcurrency (some c) = c ∧
    effectiveConcurrency none = 3 ∧
    (chunkList c files).flatten = files ∧
    (∀ b ∈ (chunkList c files).dropLast, b.length = c) ∧
    (∀ b ∈ chunkList c files, b ≠ [] ∧ b.length ≤ c) ∧
    (files.map task).length = files.length ∧
    (∀ k : Nat, (files.map task)[k]? = (files[k]?).map task) := by
  have hc0 : c ≠ 0 := by omega
  have heff : effectiveConcurrency (some c) = c := by
    simp [effectiveConcurrency, hc0]
  refine ⟨?_, heff, rfl,
    chunkListFuel_flatten c hc (files.length + 1) files (by omega),
    chunkListFuel_dropLast c hc (files.length + 1) files (by omega),
    chunkListFuel_mem c hc (files.length + 1) files (by omega),
    by simp, fun k => List.getElem?_map task files k⟩
  unfold processAll
  rw [if_neg (by simp [List.length_eq_zero]; exact hne), heff]
  exact processAllFrom_fulfilled files c task hc (files.length + 1) files 0 (by omega)

/-- Witness for C1: concurrency 2 over five files (batch sizes 2, 2, 1). -/
theorem processAll_batches_ordered_witness :
    processAll "prompts" exFiles (some 2) (fun f => Settled.fulfilled (exTask f))
      = .ok (exFiles.map exTask) ∧
    effectiveConcurrency (some 2) = 2 ∧
    effectiveConcurrency none = 3 ∧
    (chunkList 2 exFiles).flatten = exFiles ∧
    (∀ b ∈ (chunkList 2 exFiles).dropLast, b.length = 2) ∧
    (∀ b ∈ chunkList 2 exFiles, b ≠ [] ∧ b.length ≤ 2) ∧
    (exFiles.map exTask).length = exFiles.length ∧
    (∀ k : Nat, (exFiles.map exTask)[k]? = (exFiles[k]?).map exTask) :=
  processAll_batches_ordered "prompts" exFiles exTask 2 (by decide) (by decide)

/-- Sanity: the spec's example — concurrency 2 over five files gives the
    batch sizes 2, 2, 1. -/
theorem chunkList_sizes_example :
    (chunkList 2 exFiles).map List.length = [2, 2, 1] := by decide

/-- C2: the rejection handlers cannot identify the failing slot.
    `batchPromises.indexOf(result.reason)` (and, in the CSV loop,
    `batchResults.indexOf(result.reason)`) searches for the thrown error
    value among promise/settlement objects with strict equality and always
    yields `-1`.  A rejection in the first batch makes `processAll` read
    `promptFiles[-1].name` and itself reject with a TypeError; in a later
    batch the failed result names the last file of the previous batch.  In
    the CSV loop the failed result is tagged `row_-1` with `undefined` row
    data for the first batch. -/
theorem batch_rejection_misattribution :
    processAll "prompts" exFiles (some 2)
      (fun f => if f.name = "f0.txt" then Settled.rejected "boom"
        else Settled.fulfilled (exTask f))
      = .error "TypeError: Cannot read properties of undefined (reading name)" ∧
    processAll "prompts" exFiles (some 2)
      (fun f => if f.name = "f2.txt" then Settled.rejected "boom"
        else Settled.fulfilled (exTask f))
      = .ok [exTask ⟨"/p/f0.txt", "f0.txt", "c0", "/p/f0_result.txt"⟩,
             exTask ⟨"/p/f1.txt", "f1.txt", "c1", "/p/f1_result.txt"⟩,
             { file := "f1.txt", success := false, error := some "boom", duration := 0 },
             exTask ⟨"/p/f3.txt", "f3.txt", "c3", "/p/f3_result.txt"⟩,
             exTask ⟨"/p/f4.txt", "f4.txt", "c4", "/p/f4_result.txt"⟩] ∧
    ("f1.txt" : String) ≠ "f2.txt" ∧
    processCSVRows exRows (some 2)
      (fun j => if j = 0 then Settled.rejected "boom"
        else Settled.fulfilled (exCSVResult j))
      = [{ file := "row_-1", success := false, error := some "boom", duration := 0,
           rowIndex := -1, rowData := none, outputFilePath := "" },
         exCSVResult 1, exCSVResult 2] :=
  ⟨rfl, rfl, by decide, rfl⟩
